import Mathlib

/-!
Verification of the `catalog` media-library data model against its source
(`src/catalog/library.py`, `src/catalog/utils.py`, `src/catalog/speech.py`,
`src/catalog/media.py`).

Python strings are modelled as Lean `String`s; the character-level operations
that the locator grammar needs (slicing, `split`, `int(...)` parsing,
`startswith`, substring tests, lowercasing) are implemented over the
underlying `List Char`, mirroring Python's code-point semantics.
-/

namespace Catalog

/-! ## Python string primitives -/

/-- Python `s[:n]` (slice of the first `n` code points). -/
def pyTake (n : Nat) (s : String) : String := ⟨s.data.take n⟩

/-- Python `s.startswith(p)`. -/
def pyStartsWith (s p : String) : Bool := p.data.isPrefixOf s.data

/-- Substring test on code-point lists: `q` occurs contiguously in `s`. -/
def listInfix (q : List Char) : List Char → Bool
  | [] => q.isEmpty
  | a :: rest => q.isPrefixOf (a :: rest) || listInfix q rest

/-- Python `q in s` (substring containment). -/
def pyInStr (q s : String) : Bool := listInfix q.data s.data

/-- Python `s.lower()` (per-code-point lowercasing). -/
def pyLower (s : String) : String := ⟨s.data.map Char.toLower⟩

/-- Python `s.split(sep)` for a one-character separator, on code-point lists.
`pySplitCh c [] = [[]]` just as `"".split(sep) == [""]` in Python. -/
def pySplitCh (c : Char) : List Char → List (List Char)
  | [] => [[]]
  | a :: rest =>
    match pySplitCh c rest with
    | [] => [[]]
    | grp :: grps => if a = c then [] :: grp :: grps else (a :: grp) :: grps

/-- Python `s.split(sep)` on strings (one-character separator). -/
def pySplit (c : Char) (s : String) : List String :=
  (pySplitCh c s.data).map (fun l => ⟨l⟩)

/-- Value of a list of decimal digit characters, `none` if empty or a
non-digit occurs.  Helper for `parsePyInt`. -/
def parseDigits : List Char → Option Nat
  | [] => none
  | l =>
    l.foldl
      (fun acc c =>
        acc.bind (fun v => if c.isDigit then some (v * 10 + (c.toNat - 48)) else none))
      (some 0)

/-- Python `int(s)` restricted to the inputs that arise here: an optional
single sign followed by decimal digits.  (Python additionally strips
whitespace and allows `_` separators; no such input occurs in this model.) -/
def parsePyInt (s : String) : Option Int :=
  match s.data with
  | [] => none
  | a :: rest =>
    if a = '-' then (parseDigits rest).map (fun n => -(n : Int))
    else if a = '+' then (parseDigits rest).map (fun n => (n : Int))
    else (parseDigits (a :: rest)).map (fun n => (n : Int))

/-- The decimal digit character for `d < 10`, as produced by Python `str`. -/
def digitCh (d : Nat) : Char := Char.ofNat (48 + d)

/-- Fuel-bounded decimal rendering (structural recursion on the fuel so the
kernel can evaluate it; any fuel above the number of digits is enough). -/
def natCharsFuel : Nat → Nat → List Char
  | 0, _ => []
  | fuel + 1, n =>
    if n < 10 then [digitCh n]
    else natCharsFuel fuel (n / 10) ++ [digitCh (n % 10)]

/-- The code points of Python `str(n)` for a natural number `n`. -/
def natChars (n : Nat) : List Char := natCharsFuel (n + 1) n

theorem natCharsFuel_congr :
    ∀ (f1 f2 n : Nat), n < f1 → n < f2 → natCharsFuel f1 n = natCharsFuel f2 n := by
  intro f1
  induction f1 with
  | zero => intro f2 n h1; omega
  | succ f ih =>
    intro f2 n h1 h2
    cases f2 with
    | zero => omega
    | succ f' =>
      simp only [natCharsFuel]
      by_cases h : n < 10
      · simp [h]
      · have hdiv : n / 10 < n := Nat.div_lt_self (by omega) (by omega)
        rw [if_neg h, if_neg h, ih f' (n / 10) (by omega) (by omega)]

/-- The defining recurrence of `natChars`. -/
theorem natChars_unfold (n : Nat) :
    natChars n = if n < 10 then [digitCh n] else natChars (n / 10) ++ [digitCh (n % 10)] := by
  show natCharsFuel (n + 1) n = _
  by_cases h : n < 10
  · simp [natCharsFuel, h]
  · have hdiv : n / 10 < n := Nat.div_lt_self (by omega) (by omega)
    simp only [natCharsFuel, if_neg h]
    rw [natCharsFuel_congr n (n / 10 + 1) (n / 10) (by omega) (by omega)]
    rfl

/-- Python `str(n)` for a natural number. -/
def pyStr (n : Nat) : String := ⟨natChars n⟩

/-! ### Lemmas about the string primitives -/

theorem pySplitCh_ne_nil (c : Char) (l : List Char) : pySplitCh c l ≠ [] := by
  cases l with
  | nil => simp [pySplitCh]
  | cons a rest =>
    simp only [pySplitCh]
    rcases h : pySplitCh c rest with _ | ⟨grp, grps⟩
    · simp
    · by_cases hc : a = c <;> simp [hc]

theorem pySplitCh_not_mem (c : Char) (l : List Char) (h : c ∉ l) :
    pySplitCh c l = [l] := by
  induction l with
  | nil => rfl
  | cons a rest ih =>
    have hac : a ≠ c := fun hh => h (hh ▸ List.mem_cons_self a rest)
    have hr : c ∉ rest := fun hh => h (List.mem_cons_of_mem a hh)
    simp only [pySplitCh, ih hr]
    simp [hac]

theorem pySplitCh_append (c : Char) (l r : List Char) (h : c ∉ l) :
    pySplitCh c (l ++ c :: r) = l :: pySplitCh c r := by
  induction l with
  | nil =>
    simp only [List.nil_append, pySplitCh]
    rcases hr : pySplitCh c r with _ | ⟨grp, grps⟩
    · exact absurd hr (pySplitCh_ne_nil c r)
    · simp
  | cons a rest ih =>
    have hac : a ≠ c := fun hh => h (hh ▸ List.mem_cons_self a rest)
    have hrest : c ∉ rest := fun hh => h (List.mem_cons_of_mem a hh)
    simp only [List.cons_append, pySplitCh, List.append_eq]
    rw [ih hrest]
    simp [hac]

theorem digitCh_isDigit (d : Nat) (h : d < 10) : (digitCh d).isDigit = true := by
  interval_cases d <;> decide

theorem natChars_all_digits (n : Nat) : ∀ c ∈ natChars n, c.isDigit = true := by
  induction n using Nat.strong_induction_on with
  | _ n ih =>
    intro c hc
    by_cases h : n < 10
    · rw [natChars_unfold, if_pos h] at hc
      simp only [List.mem_singleton] at hc
      exact hc ▸ digitCh_isDigit n h
    · rw [natChars_unfold, if_neg h] at hc
      rcases List.mem_append.mp hc with h1 | h2
      · exact ih (n / 10) (Nat.div_lt_self (by omega) (by omega)) c h1
      · simp only [List.mem_singleton] at h2
        exact h2 ▸ digitCh_isDigit (n % 10) (Nat.mod_lt n (by omega))

theorem isDigit_ne_colon {c : Char} (h : c.isDigit = true) : c ≠ ':' :=
  fun hc => absurd (hc ▸ h) (by decide)

theorem isDigit_ne_dot {c : Char} (h : c.isDigit = true) : c ≠ '.' :=
  fun hc => absurd (hc ▸ h) (by decide)

theorem colon_not_mem_natChars (n : Nat) : ':' ∉ natChars n := by
  intro h
  exact isDigit_ne_colon (natChars_all_digits n ':' h) rfl

theorem parseDigits_cons_of_ne_nil (a : Char) (l : List Char) :
    parseDigits (a :: l) =
      (a :: l).foldl
        (fun acc c =>
          acc.bind (fun v => if c.isDigit then some (v * 10 + (c.toNat - 48)) else none))
        (some 0) := rfl

/-- Folding the digit-accumulator from an arbitrary start value. -/
theorem parseDigits_foldl_digits (l : List Char) (hl : ∀ c ∈ l, c.isDigit = true)
    (v : Nat) :
    l.foldl
      (fun acc c =>
        acc.bind (fun w => if c.isDigit then some (w * 10 + (c.toNat - 48)) else none))
      (some v) =
      some (l.foldl (fun w c => w * 10 + (c.toNat - 48)) v) := by
  induction l generalizing v with
  | nil => rfl
  | cons a rest ih =>
    have ha : a.isDigit = true := hl a (List.mem_cons_self a rest)
    have hrest : ∀ c ∈ rest, c.isDigit = true := fun c hc => hl c (List.mem_cons_of_mem a hc)
    simp only [List.foldl_cons, Option.bind, ha, if_pos]
    exact ih hrest (v * 10 + (a.toNat - 48))

theorem digitCh_toNat (d : Nat) (h : d < 10) : (digitCh d).toNat - 48 = d := by
  interval_cases d <;> decide

/-- The pure digit fold evaluates `natChars n` back to `n`. -/
theorem foldl_natChars (n v : Nat) :
    (natChars n).foldl (fun w c => w * 10 + (c.toNat - 48)) v = v * 10 ^ (natChars n).length + n := by
  induction n using Nat.strong_induction_on generalizing v with
  | _ n ih =>
    by_cases h : n < 10
    · rw [natChars_unfold, if_pos h]
      simp [digitCh_toNat n h]
    · rw [natChars_unfold, if_neg h]
      rw [List.foldl_append]
      rw [ih (n / 10) (Nat.div_lt_self (by omega) (by omega)) v]
      simp only [List.foldl_cons, List.foldl_nil, List.length_append, List.length_singleton]
      rw [digitCh_toNat (n % 10) (Nat.mod_lt n (by omega))]
      rw [pow_succ]
      have hdm : 10 * (n / 10) + n % 10 = n := Nat.div_add_mod n 10
      ring_nf
      omega

theorem natChars_ne_nil (n : Nat) : natChars n ≠ [] := by
  by_cases h : n < 10
  · rw [natChars_unfold, if_pos h]; simp
  · rw [natChars_unfold, if_neg h]; simp

/-- `int(str(n)) = n`: parsing the decimal rendering recovers the number. -/
theorem parseDigits_natChars (n : Nat) : parseDigits (natChars n) = some n := by
  rcases hl : natChars n with _ | ⟨a, rest⟩
  · exact absurd hl (natChars_ne_nil n)
  · have hall : ∀ c ∈ natChars n, c.isDigit = true := natChars_all_digits n
    rw [← hl]
    have hne : natChars n ≠ [] := natChars_ne_nil n
    have : parseDigits (natChars n) =
        (natChars n).foldl
          (fun acc c =>
            acc.bind (fun v => if c.isDigit then some (v * 10 + (c.toNat - 48)) else none))
          (some 0) := by
      rw [hl]; rfl
    rw [this, parseDigits_foldl_digits (natChars n) hall 0, foldl_natChars n 0]
    simp

theorem parsePyInt_pyStr (n : Nat) : parsePyInt (pyStr n) = some (n : Int) := by
  have hd : (pyStr n).data = natChars n := rfl
  have hall := natChars_all_digits n
  unfold parsePyInt
  rw [hd]
  rcases hl : natChars n with _ | ⟨a, rest⟩
  · exact absurd hl (natChars_ne_nil n)
  · have ha : a.isDigit = true := hall a (by rw [hl]; exact List.mem_cons_self a rest)
    have hne1 : a ≠ '-' := fun h => absurd (h ▸ ha) (by decide)
    have hne2 : a ≠ '+' := fun h => absurd (h ▸ ha) (by decide)
    have hp := parseDigits_natChars n
    rw [hl] at hp
    simp [hne1, hne2, hp]

/-! ## Data model

Shallow embedding of the records manipulated by `catalog.library` /
`catalog.utils`.  A node dict carries its text under the key `"content"`
(transcript nodes) or `"text"` (speech nodes); `usesContentKey` records which
key is present, `value` the stored string (the code's
`content_key = "content" if "content" in node else "text"` selects the same
`value` either way). -/

structure SNode where
  usesContentKey : Bool
  value : String
  deriving DecidableEq, Repr

/-- A transcript or speech_data entry: `{id, nodes, ...}` (provenance fields
that no claim inspects are omitted). -/
structure SEntry where
  id : String
  nodes : List SNode
  deriving DecidableEq, Repr

/-- A media object as the library stores it.  `hasSpeech` models whether the
variant defines the `transcripts`/`speech_data` attributes (true for
Audio/Voice/Video, false for Image/Screenshot/Chat — the Python code tests
this with `hasattr`). -/
structure MObj where
  id : String
  md5_hash : Option String
  hasSpeech : Bool
  speech_data : List SEntry
  transcripts : List SEntry
  deriving DecidableEq, Repr

/-- The Python `ValueError`s raised by the resolution functions, keyed by
their distinct messages. -/
inductive PyErr where
  | notFound
  | ambiguousMatch (candidates : List String)
  | duplicate
  deriving DecidableEq, Repr

instance {ε α : Type} [DecidableEq ε] [DecidableEq α] : DecidableEq (Except ε α)
  | .ok a, .ok b =>
    if h : a = b then isTrue (by rw [h]) else isFalse (fun hh => by cases hh; exact h rfl)
  | .ok _, .error _ => isFalse (fun hh => by cases hh)
  | .error _, .ok _ => isFalse (fun hh => by cases hh)
  | .error e, .error f =>
    if h : e = f then isTrue (by rw [h]) else isFalse (fun hh => by cases hh; exact h rfl)

/-! ## Library.import_media_object and deduplication (library.py 96-168)

`import_media_object` computes the md5 of the source file, speculatively
constructs the media object (here: the constructed object `newObj`, already
carrying `md5_hash`), and only appends it when no object with that hash is
stored; otherwise it returns the existing object and leaves the library
unchanged.  The file-copy and `save_library` side effects do not touch
`media_objects` and are not modelled. -/

/-- `Library.fetch_object_by_hash`: first stored object with the given hash. -/
def fetch_object_by_hash (media_objects : List MObj) (md5 : Option String) : Option MObj :=
  media_objects.find? (fun o => o.md5_hash = md5)

/-- `Library.import_media_object` (the generic `media_object_class` branch),
returning the object handed back to the caller and the new `media_objects`
list. -/
def import_media_object (media_objects : List MObj) (newObj : MObj) :
    MObj × List MObj :=
  match fetch_object_by_hash media_objects newObj.md5_hash with
  | some existing => (existing, media_objects)
  | none => (newObj, media_objects ++ [newObj])

/-- Number of stored objects carrying the given hash. -/
def countByHash (media_objects : List MObj) (h : String) : Nat :=
  (media_objects.filter (fun o => o.md5_hash = some h)).length

/-! ## Locators (library.py search, utils.py update_node_content) -/

/-- The locator emitted by `Library.search`:
`f"{media_id[:8]}:{entry_type}:{entry['id'][:5]}.nodes:{index}"`. -/
def mkLocator (mediaId entryType entryId : String) (index : Nat) : String :=
  ⟨(pyTake 8 mediaId).data ++ ':' :: entryType.data ++ ':' :: (pyTake 5 entryId).data
    ++ '.' :: ['n', 'o', 'd', 'e', 's'] ++ ':' :: natChars index⟩

/-- `getattr(media_object, entry_type, [])` for the two entry collections. -/
def getEntries (o : MObj) (entryType : String) : List SEntry :=
  if entryType = "speech_data" then (if o.hasSpeech then o.speech_data else [])
  else if entryType = "transcripts" then (if o.hasSpeech then o.transcripts else [])
  else []

/-- The `except ValueError` branch of `fetch_subtarget_entry`: first entry
whose UUID starts with `entry_id`, else the `No ... entry found` error. -/
def fetchEntryByUuid (entries : List SEntry) (entryId : String) :
    Except PyErr (Option SEntry) :=
  match entries.find? (fun e => pyStartsWith e.id entryId) with
  | some e => .ok (some e)
  | none => .error .notFound

/-- `fetch_subtarget_entry` (utils.py 158-177).  `int(entry_id)` is attempted
first; `-1` selects the last entry (`None` on an empty list), an in-range
index selects positionally.  An out-of-range index raises `ValueError`
*inside* the `try` whose handler catches `ValueError`, so it falls through to
the UUID-prefix branch exactly like a non-numeric id; only the prefix
branch's `No ... entry found` error (`notFound`) can escape. -/
def fetch_subtarget_entry (entries : List SEntry) (entryId : String) :
    Except PyErr (Option SEntry) :=
  match parsePyInt entryId with
  | some k =>
    if k = -1 then .ok entries.getLast?
    else if 0 ≤ k ∧ k < entries.length then .ok (entries.get? k.toNat)
    else fetchEntryByUuid entries entryId
  | none => fetchEntryByUuid entries entryId

/-- `Library.fetch` for a single id: the first media object whose id starts
with the given prefix (`None` models the `ValueError` when nothing matches). -/
def fetchFirst (media_objects : List MObj) (idPrefix : String) : Option MObj :=
  media_objects.find? (fun o => pyStartsWith o.id idPrefix)

/-- `update_node_content.parse_node_locator` (utils.py 204-232): split on
`':'`, require at least three parts, split the third part on `'.'` into
entry id and subfield, require subfield `"nodes"`, and read the node index
from the last `':'`-separated part.  Returns
`(media_id, entry_type, entry_id, node_index)`; `none` models the raised
`ValueError`s. -/
def parse_node_locator (locator : String) :
    Option (String × String × String × Option Int) :=
  match pySplit ':' locator with
  | mediaId :: entryType :: entryIdPart :: restParts =>
    match pySplit '.' entryIdPart with
    | [_] => none
    | entryId :: subfield :: entryRest =>
      let subfieldRange : Option String :=
        match entryRest with
        | r :: _ => some r
        | [] =>
          -- `if subfield and subfield_range is None and ":" in locator`
          if ':' ∈ locator.data then
            (mediaId :: entryType :: entryIdPart :: restParts).getLast?
          else none
      if subfield = "nodes" then
        some (mediaId, entryType, entryId, subfieldRange.bind parsePyInt)
      else none
    | [] => none
  | _ => none

/-- The node lookup of `update_node_content.fetch_node`:
`if node_index < 0 or node_index >= len(entry["nodes"]): raise IndexError`,
else `entry["nodes"][node_index]`. -/
def fetchNodeAt (e : SEntry) (k : Int) : Option SNode :=
  if k < 0 ∨ (e.nodes.length : Int) ≤ k then none else e.nodes.get? k.toNat

/-- The entry stage of `fetch_node`: resolve the entry id, require an actual
entry with nodes, then index into its nodes (a missing index means Python
compares `None` with `0` and fails). -/
def fetchNodeInObject (o : MObj) (entryType entryId : String)
    (nodeIndex? : Option Int) : Option SNode :=
  match fetch_subtarget_entry (getEntries o entryType) entryId with
  | .error _ => none
  | .ok none => none
  | .ok (some e) =>
    match nodeIndex? with
    | none => none
    | some k => fetchNodeAt e k

/-- `update_node_content.fetch_node` (utils.py 234-241) composed with the
locator parse and `Library.fetch`; returns the addressed node.  `none`
models every raised error (bad locator, no object, no entry, index out of
range). -/
def resolveLocator (media_objects : List MObj) (locator : String) : Option SNode :=
  match parse_node_locator locator with
  | none => none
  | some (mediaId, entryType, entryId, nodeIndex?) =>
    match fetchFirst media_objects mediaId with
    | none => none
    | some o => fetchNodeInObject o entryType entryId nodeIndex?

/-! ## Library.search (library.py 270-346) -/

/-- The per-object contribution to `entries_to_search`: with `full_search`
every speech_data entry then every transcript entry; otherwise the most
recent speech_data entry when one exists, else the most recent transcript. -/
def entriesContrib (o : MObj) (full : Bool) : List (String × String × SEntry) :=
  if full then
    (if o.hasSpeech then o.speech_data.map (fun e => (o.id, "speech_data", e)) else [])
      ++ (if o.hasSpeech then o.transcripts.map (fun e => (o.id, "transcripts", e)) else [])
  else
    if o.hasSpeech ∧ o.speech_data ≠ [] then
      match o.speech_data.getLast? with
      | some e => [(o.id, "speech_data", e)]
      | none => []
    else if o.hasSpeech ∧ o.transcripts ≠ [] then
      match o.transcripts.getLast? with
      | some e => [(o.id, "transcripts", e)]
      | none => []
    else []

/-- The `entries_to_search` list built by the first loop of `Library.search`,
as the code builds it (appending per object). -/
def entriesToSearch (media_objects : List MObj) (full : Bool) :
    List (String × String × SEntry) :=
  media_objects.foldl (fun acc o => acc ++ entriesContrib o full) []

/-- `Library.search._exact_search` on one entry: every node whose
(lower-cased, when `ignoreCase`) content contains the prepared query yields a
`(node content, locator)` pair. -/
def exactSearchEntry (query : String) (ignoreCase : Bool)
    (item : String × String × SEntry) : List (String × String) :=
  match item with
  | (mediaId, entryType, e) =>
    e.nodes.enum.filterMap (fun p =>
      let content := if ignoreCase then pyLower p.2.value else p.2.value
      if pyInStr query content then
        some (p.2.value, mkLocator mediaId entryType e.id p.1)
      else none)

/-- The entry loop of `Library.search`: accumulate matches entry by entry,
breaking once `max_results` is reached. -/
def searchAccum (matcher : String × String × SEntry → List (String × String))
    (maxResults : Nat) :
    List (String × String × SEntry) → List (String × String) → List (String × String)
  | [], acc => acc
  | item :: rest, acc =>
    let acc' := acc ++ matcher item
    if maxResults ≤ acc'.length then acc'
    else searchAccum matcher maxResults rest acc'

/-- `Library.search` with a per-entry matcher abstracting the mode
(`exact`/`fuzzy`); `searchExact` instantiates it with the exact matcher.
Ends with the code's `results[:max_results]`. -/
def searchWith (matcher : String × String × SEntry → List (String × String))
    (media_objects : List MObj) (maxResults : Nat) (full : Bool) :
    List (String × String) :=
  (searchAccum matcher maxResults (entriesToSearch media_objects full) []).take maxResults

/-- `Library.search(query, mode="exact", ...)`: the query is lower-cased up
front when `ignore_case`, then the exact matcher runs over the selected
entries. -/
def searchExact (media_objects : List MObj) (query : String) (maxResults : Nat)
    (ignoreCase full : Bool) : List (String × String) :=
  let query' := if ignoreCase then pyLower query else query
  searchWith (exactSearchEntry query' ignoreCase) media_objects maxResults full

/-! ## Tag graph (library.py 861-946, 948-984, 1073-1105) -/

/-- A tag record `{id, name, parents, description}`. -/
structure Tag where
  id : String
  name : String
  parents : List String
  description : String
  deriving DecidableEq, Repr

/-- A tag assignment on an object or entry: `{id, date_assigned, source}`. -/
structure TagAssign where
  id : String
  date_assigned : String
  source : String
  deriving DecidableEq, Repr

/-- `Library.get_tag_name(tag_id, mode="full")`: walk the first-parent chain,
prepending each parent's name, and join with `/`.  The Python `while` loop
does not terminate on cyclic parent chains; `fuel` bounds the walk (any
`fuel ≥ tags.length` is enough for acyclic data). -/
def get_tag_name_parts (tags : List Tag) (fuel : Nat) (t : Tag) : List String :=
  match fuel with
  | 0 => [t.name]
  | fuel' + 1 =>
    match t.parents with
    | [] => [t.name]
    | parentId :: _ =>
      match tags.find? (fun p => p.id = parentId) with
      | some p => get_tag_name_parts tags fuel' p ++ [t.name]
      | none => [t.name]

/-- `Library.get_tag_name` (`mode="full"`): the `/`-joined qualified path. -/
def get_tag_name (tags : List Tag) (fuel : Nat) (tagId : String) : Option String :=
  (tags.find? (fun t => t.id = tagId)).map
    (fun t => String.intercalate "/" (get_tag_name_parts tags fuel t))

/-- `Library.get_tag_id` (library.py 948-984): exact id match, then (for
targets of length ≥ 5) unique id-prefix match, then case-insensitive match
on the tag's plain `name` field. -/
def get_tag_id (tags : List Tag) (target : String) : Except PyErr String :=
  if (tags.map (fun t => t.id)).contains target then .ok target
  else
    let nameStage : Except PyErr String :=
      match tags.filter (fun t => pyLower t.name = pyLower target) with
      | [t] => .ok t.id
      | [] => .error .notFound
      | matches_ => .error (.ambiguousMatch (matches_.map (fun t => t.id)))
    if 5 ≤ target.length then
      match tags.filter (fun t => pyStartsWith t.id target) with
      | [t] => .ok t.id
      | [] => nameStage
      | matches_ => .error (.ambiguousMatch (matches_.map (fun t => t.id)))
    else nameStage

/-- `Library.create_tag` (library.py 935-946): reject (case-insensitively)
duplicate names, else append `{id := freshId, name, parents, description}`;
`parents` is `[parent]` when a parent is given.  `freshId` stands for the
generated `uuid4`. -/
def create_tag (tags : List Tag) (name : String) (parent : Option String)
    (description : String) (freshId : String) : Except PyErr (List Tag) :=
  if tags.any (fun t => pyLower t.name = pyLower name) then .error .duplicate
  else .ok (tags ++ [⟨freshId, name, parent.toList, description⟩])

/-- `Library.tag_object` (library.py 1073-1089) acting on the object's
`metadata["tags"]` list: resolve the tag string, fail on a duplicate
assignment, else append a `{id, date_assigned, source}` record (`now` stands
for `datetime.now().isoformat()`). -/
def tag_object (tags : List Tag) (objTags : List TagAssign) (tagStr : String)
    (now source : String) : Except PyErr (List TagAssign) :=
  match get_tag_id tags tagStr with
  | .error e => .error e
  | .ok tagId =>
    if objTags.any (fun a => tagId = a.id) then .error .duplicate
    else .ok (objTags ++ [⟨tagId, now, source⟩])

/-! ## Groups (library.py 1097-1105, 1252-1284) -/

/-- The facet of a stored media object that `Group.add_objects` sorts on:
`(metadata.get("date_recorded"), metadata.get("date_stored"))`.
`date_stored` is always set by the `MediaObject` constructor
(`datetime.now().isoformat()`), `date_recorded` may be absent (`none`). -/
structure GObj where
  id : String
  date_recorded : Option String
  date_stored : String
  deriving DecidableEq, Repr

/-- Python's `<=` on the `date_recorded` component of the sort key.  Mixing
`None` with a string raises `TypeError` in Python; the `none ≤ some` branch
is an arbitrary totalisation, and the theorems below restrict to key sets on
which Python's comparison is defined. -/
def optStrLe (a b : Option String) : Bool :=
  match a, b with
  | none, none => true
  | some x, some y => x ≤ y
  | none, some _ => true
  | some _, none => false

def optStrEq (a b : Option String) : Bool :=
  match a, b with
  | none, none => true
  | some x, some y => x = y
  | _, _ => false

/-- Python tuple comparison of the `(date_recorded, date_stored)` sort keys. -/
def gobjLe (a b : GObj) : Bool :=
  if optStrEq a.date_recorded b.date_recorded then a.date_stored ≤ b.date_stored
  else optStrLe a.date_recorded b.date_recorded

/-- A group's tag list holds bare tag ids (`group.tags`), unlike the
`TagAssign` records stored on objects and entries. -/
structure Group where
  id : String
  name : String
  objects : List GObj
  tags : List String
  deriving DecidableEq, Repr

/-- `Group.add_objects` (library.py 1263-1274): keep only the batch elements
not already present, and when any remain, extend and re-sort the whole list
by `(date_recorded, date_stored)`. -/
def add_objects (current : List GObj) (batch : List GObj) : List GObj :=
  let newObjects := batch.filter (fun o => ¬ current.contains o)
  if newObjects = [] then current
  else (current ++ newObjects).mergeSort gobjLe

/-- `Library.tag_group` (library.py 1097-1100): resolve the tag string and
append the bare id unless it is already present (a silent no-op then). -/
def tag_group (tags : List Tag) (g : Group) (tagStr : String) :
    Except PyErr Group :=
  match get_tag_id tags tagStr with
  | .error e => .error e
  | .ok tagId =>
    if tagId ∈ g.tags then .ok g
    else .ok { g with tags := g.tags ++ [tagId] }

/-! ## Object serialization (library.py 1134-1221)

Model of `serialize_object`/`deserialize_object` for the file-backed
non-Chat variants (Audio/Voice/Video; `class_name` dispatches Chat to a
different constructor, everything after construction is identical).

Python `datetime` objects are modelled as abstract `Nat` timestamps;
`isoformat` is modelled as the injective decimal rendering `pyStr` and
`fromisoformat` as its left inverse.  A metadata value is `none` (Python
`None` / absent key), a string, or a datetime. -/

inductive PVal where
  | none
  | str (s : String)
  | dt (t : Nat)
  deriving DecidableEq, Repr

/-- `datetime.isoformat`, abstracted. -/
def pvalIso (t : Nat) : String := pyStr t

/-- `datetime.fromisoformat`, abstracted (left inverse of `pvalIso` on its
image; Python raises on malformed input, which never reaches this model). -/
def pvalFromIso (s : String) : Nat :=
  match parseDigits s.data with
  | some n => n
  | Option.none => 0

/-- The recognized metadata keys of a media object (`serialize_object`
serializes exactly these; a missing key and a `None` value coincide here). -/
structure OMeta where
  name : PVal
  url : PVal
  date_created : PVal
  date_modified : PVal
  date_stored : PVal
  date_recorded : PVal
  source_filename : PVal
  tags : List TagAssign
  deriving DecidableEq, Repr

/-- An Audio/Voice/Video media object as held in memory. -/
structure AVObj where
  id : String
  metadata : OMeta
  file_path : Option String
  md5_hash : Option String
  text : String
  processed_text : List String
  transcripts : List SEntry
  speech_data : List SEntry
  class_name : String
  deriving DecidableEq, Repr

/-- The serialized record (the JSON dict built by `serialize_object`):
the explicit keys plus, via the `dir()` reflection loop, the remaining
plain-data attributes `speech_data` and `transcripts`. -/
structure SerObj where
  id : String
  metadata : OMeta
  file_path : Option String
  md5_hash : Option String
  text : String
  processed_text : List String
  class_name : String
  module_name : String
  speech_data : List SEntry
  transcripts : List SEntry
  deriving DecidableEq, Repr

/-- `isoformat()` applied when the value is a `datetime` instance, else the
raw value — the treatment of `date_created`/`date_modified` in
`serialize_object` (`date_stored`/`date_recorded` are passed through raw). -/
def serDate : PVal → PVal
  | .dt t => .str (pvalIso t)
  | v => v

/-- `Library.serialize_object` (library.py 1134-1173) on a non-Chat object
(for these, `chat_metadata` serializes to `{}` and is dropped by the model). -/
def serialize_object (o : AVObj) : SerObj :=
  { id := o.id
    metadata :=
      { name := o.metadata.name
        url := o.metadata.url
        date_created := serDate o.metadata.date_created
        date_modified := serDate o.metadata.date_modified
        date_stored := o.metadata.date_stored
        date_recorded := o.metadata.date_recorded
        source_filename := o.metadata.source_filename
        tags := o.metadata.tags }
    file_path := o.file_path
    md5_hash := o.md5_hash
    text := o.text
    processed_text := o.processed_text
    class_name := o.class_name
    module_name := "catalog.media"
    speech_data := o.speech_data
    transcripts := o.transcripts }

/-- Whether a metadata value is a `datetime` instance (the
`isinstance(..., datetime)` test of `serialize_object`). -/
def pvalIsDatetime : PVal → Bool
  | .dt _ => true
  | _ => false

/-- `datetime.fromisoformat(value) if value and isinstance(value, str) else
value` — the per-key parse in `deserialize_object`'s metadata loop (an empty
string is falsy and kept raw). -/
def parseDate : PVal → PVal
  | .str s => if s = "" then .str s else .dt (pvalFromIso s)
  | v => v

/-- `Library.deserialize_object` (library.py 1175-1221) on a non-Chat
record.  The real constructor call
`media_object_class(file_path=...)` generates a fresh uuid and stats the
backing file; `ctorId`/`ctorCreated`/`ctorModified`/`ctorNow` stand for
those environment-dependent values — every field they initialise is
overwritten by the subsequent steps.  The final reflection loop
(`for attr_name, attr_value in serialized_data.items(): if hasattr(...):
setattr(...)`) runs after the metadata-parsing loop and overwrites
`metadata` with the raw serialized dict, as well as (re)setting `id`,
`file_path`, `md5_hash`, `text`, `processed_text`, `speech_data` and
`transcripts` from the record. -/
def deserialize_object (s : SerObj) (ctorId : String)
    (ctorCreated ctorModified : PVal) (ctorNow : String) : AVObj :=
  -- media_object_class(file_path=serialized_data["file_path"])
  let base : AVObj :=
    { id := ctorId
      metadata :=
        { name := .none
          url := .none
          date_created := ctorCreated
          date_modified := ctorModified
          date_stored := .str ctorNow
          date_recorded := .none
          source_filename :=
            match s.file_path with
            | some p => .str p
            | Option.none => .none
          tags := [] }
      file_path := s.file_path
      md5_hash := Option.none
      text := ""
      processed_text := []
      transcripts := []
      speech_data := []
      class_name := s.class_name }
  -- media_object.id = ...; media_object.md5_hash = ...
  let o1 := { base with id := s.id, md5_hash := s.md5_hash }
  -- the metadata loop: dates parsed from iso strings, other keys copied
  let o2 := { o1 with metadata :=
    { name := s.metadata.name
      url := s.metadata.url
      date_created := parseDate s.metadata.date_created
      date_modified := parseDate s.metadata.date_modified
      date_stored := s.metadata.date_stored
      date_recorded := parseDate s.metadata.date_recorded
      source_filename := s.metadata.source_filename
      tags := s.metadata.tags } }
  -- media_object.text = ...; media_object.processed_text = ...
  let o3 := { o2 with text := s.text, processed_text := s.processed_text }
  -- the reflection loop, in the record's key order (class_name and
  -- module_name are skipped: instances have no such attributes)
  { o3 with
    id := s.id
    metadata := s.metadata
    file_path := s.file_path
    md5_hash := s.md5_hash
    text := s.text
    processed_text := s.processed_text
    speech_data := s.speech_data
    transcripts := s.transcripts }

/-! ## Speech resegmentation parsing (speech.py 55-78) -/

/-- An S-expression as returned by `sexpdata.loads`: atoms (symbols/strings)
and nested lists. -/
inductive Sexp where
  | atom (s : String)
  | slist (xs : List Sexp)

/-- A parsed speech node `{index, text, parent}`. -/
structure PNode where
  index : Nat
  text : String
  parent : Option Nat
  deriving DecidableEq, Repr

/-- A parsed section `{label, indeces}`; Python's `end_index = len(nodes)-1`
can be `-1`, so the pair is over `Int`. -/
structure Section where
  label : String
  start_index : Int
  end_index : Int
  deriving DecidableEq, Repr

/-- The `{"sections": ..., "nodes": ...}` result of `parse_sexp`. -/
structure ParsedSpeech where
  sections : List Section
  nodes : List PNode
  deriving DecidableEq, Repr

mutual
/-- `parse_sexp.process_node`: append a node per atom, and for a list, one
node for its head (its `text` is `node[0]`, an atom for well-formed input)
followed by its tail processed with the new node as parent.  `none` models
the `IndexError` on an empty list and the (malformed) case of a non-atom
head. -/
def processNode (parent : Option Nat) (acc : List PNode) : Sexp → Option (List PNode)
  | .atom s => some (acc ++ [⟨acc.length, s, parent⟩])
  | .slist [] => none
  | .slist (Sexp.atom s :: tl) =>
    processNodeList acc.length (acc ++ [⟨acc.length, s, parent⟩]) tl
  | .slist (Sexp.slist _ :: _) => none

/-- The `for subnode in node[1:]` loop. -/
def processNodeList (parent : Nat) (acc : List PNode) : List Sexp → Option (List PNode)
  | [] => some acc
  | x :: xs =>
    match processNode (some parent) acc x with
    | some acc' => processNodeList parent acc' xs
    | none => none
end

/-- The `for node in section[2:]` loop of the section pass: each top-level
node is processed with `parent = None`. -/
def processTopList (acc : List PNode) : List Sexp → Option (List PNode)
  | [] => some acc
  | x :: xs =>
    match processNode Option.none acc x with
    | some acc' => processTopList acc' xs
    | none => none

/-- The `for section in sexp[1:]` loop: each section contributes
`{label, (start, end)}` with `start = len(nodes)` before and
`end = len(nodes) - 1` after its `for node in section[2:]` loop. -/
def sectionLoop (accSections : List Section) (accNodes : List PNode) :
    List Sexp → Option ParsedSpeech
  | [] => some ⟨accSections, accNodes⟩
  | Sexp.slist (_ :: Sexp.atom label :: content) :: rest =>
    let startIndex : Int := accNodes.length
    match processTopList accNodes content with
    | some nodes' =>
      sectionLoop
        (accSections ++ [⟨label, startIndex, (nodes'.length : Int) - 1⟩]) nodes' rest
    | none => none
  | _ => none

/-- `parse_sexp` (speech.py 55-78).  `none` models the Python exceptions on
input outside the grammar (a non-list document raises `TypeError` on
`sexp[1:]`, a too-short or non-list section raises on `section[1]`, a
non-atom label is rejected as malformed). -/
def parse_sexp (sexp : Sexp) : Option ParsedSpeech :=
  match sexp with
  | .atom _ => none
  | .slist tops => sectionLoop [] [] (tops.drop 1)

mutual
/-- Well-formed node trees: an atom, or a list headed by an atom whose
remaining elements are well-formed. -/
def wfNode : Sexp → Bool
  | .atom _ => true
  | .slist [] => false
  | .slist (Sexp.atom _ :: tl) => wfNodeList tl
  | .slist (Sexp.slist _ :: _) => false

/-- `wfNode` on every element of a list. -/
def wfNodeList : List Sexp → Bool
  | [] => true
  | x :: xs => wfNode x && wfNodeList xs
end

/-- Well-formed sections: `(section "Label" node ...)`. -/
def wfSection : Sexp → Bool
  | .slist (_ :: Sexp.atom _ :: content) => wfNodeList content
  | _ => false

/-- Well-formed documents: `(document (section ...) ...)`. -/
def wfDocument : Sexp → Bool
  | .slist (_ :: sections) => sections.all wfSection
  | _ => false

/-- A section of `(section "Label")` shape, with no content nodes. -/
def sectionNonempty : Sexp → Bool
  | .slist (_ :: _ :: content) => ¬ content.isEmpty
  | _ => false

/-- Every section of the document carries at least one content node. -/
def allSectionsNonempty : Sexp → Bool
  | .slist (_ :: sections) => sections.all sectionNonempty
  | _ => true

/-- Node indices are dense and in document order. -/
def indicesDense (nodes : List PNode) : Prop :=
  ∀ j : Nat, (hj : j < nodes.length) → nodes[j].index = j

/-- A section's `(start, end)` pair references existing nodes of the entry. -/
def sectionValid (nodeCount : Nat) (s : Section) : Prop :=
  0 ≤ s.start_index ∧ s.start_index ≤ s.end_index ∧ s.end_index < (nodeCount : Int)

/-- Two sections' inclusive index ranges do not overlap. -/
def sectionsDisjoint (s t : Section) : Prop :=
  t.start_index > s.end_index ∨ s.start_index > t.end_index

instance (n : Nat) (s : Section) : Decidable (sectionValid n s) :=
  inferInstanceAs (Decidable (0 ≤ s.start_index ∧ s.start_index ≤ s.end_index ∧
    s.end_index < (n : Int)))

instance (s t : Section) : Decidable (sectionsDisjoint s t) :=
  inferInstanceAs (Decidable (t.start_index > s.end_index ∨ s.start_index > t.end_index))

/-! ## Claim C1 -/

/-- C1: importing the same file content twice (two speculatively constructed
objects `n1`, `n2` carrying the same content hash, regardless of their
paths/names) leaves exactly one media object with that hash in the library,
the second import returns the object stored by the first, and the
`media_objects` list is unchanged by the second import.  The hypothesis is
the library's own dedup invariant (at most one object per hash). -/
theorem C1_dedup_invariant (lib : List MObj) (n1 n2 : MObj) (h : String)
    (h1 : n1.md5_hash = some h) (h2 : n2.md5_hash = some h)
    (hinv : countByHash lib h ≤ 1) :
    (import_media_object (import_media_object lib n1).2 n2).1 =
      (import_media_object lib n1).1 ∧
    (import_media_object (import_media_object lib n1).2 n2).2 =
      (import_media_object lib n1).2 ∧
    countByHash (import_media_object (import_media_object lib n1).2 n2).2 h = 1 := by
  rcases hf : lib.find? (fun o => o.md5_hash = some h) with _ | o
  · -- nothing with hash h is stored: the first import appends n1
    have e1 : import_media_object lib n1 = (n1, lib ++ [n1]) := by
      unfold import_media_object fetch_object_by_hash
      rw [h1, hf]
    have hfind2 : (lib ++ [n1]).find? (fun o => o.md5_hash = some h) = some n1 := by
      rw [List.find?_append, hf]
      simp [h1]
    have e2 : import_media_object (lib ++ [n1]) n2 = (n1, lib ++ [n1]) := by
      unfold import_media_object fetch_object_by_hash
      rw [h2, hfind2]
    rw [e1]
    rw [e2]
    refine ⟨rfl, rfl, ?_⟩
    have hnone : ∀ o ∈ lib, ¬(o.md5_hash = some h) := by
      intro o ho
      have := List.find?_eq_none.mp hf o ho
      simpa using this
    have hfilter : lib.filter (fun o => decide (o.md5_hash = some h)) = [] := by
      rw [List.filter_eq_nil_iff]
      intro o ho
      simpa using hnone o ho
    unfold countByHash
    rw [List.filter_append, hfilter]
    simp [h1]
  · -- an object with hash h exists: both imports return it unchanged
    have e1 : import_media_object lib n1 = (o, lib) := by
      unfold import_media_object fetch_object_by_hash
      rw [h1, hf]
    have e2 : import_media_object lib n2 = (o, lib) := by
      unfold import_media_object fetch_object_by_hash
      rw [h2, hf]
    rw [e1]
    rw [e2]
    refine ⟨rfl, rfl, ?_⟩
    have hmem : o ∈ lib := List.mem_of_find?_eq_some hf
    have hpo : o.md5_hash = some h := by
      have := List.find?_some hf
      simpa using this
    have hge : 1 ≤ countByHash lib h := by
      unfold countByHash
      have : o ∈ lib.filter (fun o => decide (o.md5_hash = some h)) :=
        List.mem_filter.mpr ⟨hmem, by simpa using hpo⟩
      exact List.length_pos.mpr (List.ne_nil_of_mem this)
    show countByHash lib h = 1
    omega

/-- Witness for C1 at a two-object import into the empty library. -/
theorem C1_dedup_invariant_witness :
    (import_media_object
        (import_media_object [] ⟨"ida", some "h77", false, [], []⟩).2
        ⟨"idb", some "h77", false, [], []⟩).1 =
      (import_media_object [] ⟨"ida", some "h77", false, [], []⟩).1 ∧
    (import_media_object
        (import_media_object [] ⟨"ida", some "h77", false, [], []⟩).2
        ⟨"idb", some "h77", false, [], []⟩).2 =
      (import_media_object [] ⟨"ida", some "h77", false, [], []⟩).2 ∧
    countByHash
      (import_media_object
          (import_media_object [] ⟨"ida", some "h77", false, [], []⟩).2
          ⟨"idb", some "h77", false, [], []⟩).2 "h77" = 1 :=
  C1_dedup_invariant [] ⟨"ida", some "h77", false, [], []⟩
    ⟨"idb", some "h77", false, [], []⟩ "h77" rfl rfl (by decide)

/-! ## Claim C6 -/

/-- C6: when no stored tag already uses the name, `create_tag` succeeds for
the first of two case-insensitively equal names and fails with the
duplicate-name error for the second, regardless of the parent argument —
tag names are globally unique (case-insensitively) across the tag set. -/
theorem C6_tag_name_global_uniqueness (tags : List Tag) (name1 name2 : String)
    (p1 p2 : Option String) (d1 d2 id1 id2 : String)
    (hnames : pyLower name1 = pyLower name2)
    (hfree : ∀ t ∈ tags, pyLower t.name ≠ pyLower name1) :
    create_tag tags name1 p1 d1 id1 = .ok (tags ++ [⟨id1, name1, p1.toList, d1⟩]) ∧
    create_tag (tags ++ [⟨id1, name1, p1.toList, d1⟩]) name2 p2 d2 id2 =
      .error .duplicate := by
  constructor
  · unfold create_tag
    have hany : tags.any (fun t => pyLower t.name = pyLower name1) = false := by
      rw [List.any_eq_false]
      intro t ht
      simpa using hfree t ht
    rw [if_neg (by simp [hany])]
  · unfold create_tag
    have hany : (tags ++ [(⟨id1, name1, p1.toList, d1⟩ : Tag)]).any
        (fun t => pyLower t.name = pyLower name2) = true := by
      rw [List.any_eq_true]
      exact ⟨⟨id1, name1, p1.toList, d1⟩, by simp, by simpa using hnames⟩
    rw [if_pos (by simp only [hany])]

/-- Witness for C6: `"Work"` then `"wORK"` under a different parent. -/
theorem C6_tag_name_global_uniqueness_witness :
    create_tag [] "Work" none "" "tid-1" = .ok [⟨"tid-1", "Work", [], ""⟩] ∧
    create_tag [⟨"tid-1", "Work", [], ""⟩] "wORK" (some "tid-parent") "" "tid-2" =
      .error .duplicate :=
  C6_tag_name_global_uniqueness [] "Work" "wORK" none (some "tid-parent") "" "" "tid-1"
    "tid-2" (by decide) (by intro t ht; cases ht)

/-! ## Claim C10 -/

/-- C10: `tag_group` never raises on a duplicate assignment — when the
resolved tag id is already in `group.tags` it returns the group unchanged —
and otherwise stores only the bare tag id; `tag_object`, by contrast,
raises the duplicate-assignment error when the resolved id is already
assigned. -/
theorem C10_tag_group_idempotent (tags : List Tag) (g : Group)
    (tagStr tagId : String) (hres : get_tag_id tags tagStr = .ok tagId) :
    (tagId ∈ g.tags → tag_group tags g tagStr = .ok g) ∧
    (tagId ∉ g.tags →
      tag_group tags g tagStr = .ok { g with tags := g.tags ++ [tagId] }) ∧
    (∀ objTags now source, (∃ a ∈ objTags, a.id = tagId) →
      tag_object tags objTags tagStr now source = .error .duplicate) := by
  refine ⟨?_, ?_, ?_⟩
  · intro hmem
    unfold tag_group
    rw [hres]
    simp [hmem]
  · intro hmem
    unfold tag_group
    rw [hres]
    simp [hmem]
  · intro objTags now source hdup
    unfold tag_object
    rw [hres]
    have hany : objTags.any (fun a => tagId = a.id) = true := by
      rw [List.any_eq_true]
      obtain ⟨a, ha, hid⟩ := hdup
      exact ⟨a, ha, by simp [hid]⟩
    simp [hany]

/-- Witness for C10: re-tagging a group is a no-op while re-tagging an
object errors. -/
theorem C10_tag_group_idempotent_witness :
    tag_group [⟨"ttttt-tag-1", "work", [], ""⟩] ⟨"g1", "grp", [], ["ttttt-tag-1"]⟩
      "work" = .ok ⟨"g1", "grp", [], ["ttttt-tag-1"]⟩ ∧
    tag_object [⟨"ttttt-tag-1", "work", [], ""⟩] [⟨"ttttt-tag-1", "2024", "user"⟩]
      "work" "2025" "user" = .error .duplicate := by
  have h := C10_tag_group_idempotent [⟨"ttttt-tag-1", "work", [], ""⟩]
    ⟨"g1", "grp", [], ["ttttt-tag-1"]⟩ "work" "ttttt-tag-1" (by decide)
  exact ⟨h.1 (by decide), h.2.2 [⟨"ttttt-tag-1", "2024", "user"⟩] "2025" "user"
    ⟨⟨"ttttt-tag-1", "2024", "user"⟩, by decide, rfl⟩⟩

/-! ## Claim C5 -/

/-- C5 counterexample: the claim says a numeric `entry_id` outside the list
bounds fails with an out-of-range error.  With one entry whose UUID is
`"5abcd-entry"`, `entry_id = "5"` parses as the integer 5, is out of range
for the 1-element list, yet `fetch_subtarget_entry` succeeds, returning the
entry by UUID-prefix fallback (the out-of-range `ValueError` is swallowed by
the function's own `except ValueError`). -/
theorem C5_counterexample :
    parsePyInt "5" = some 5 ∧
    ¬((5 : Int) < ([⟨"5abcd-entry", [⟨true, "x"⟩]⟩] : List SEntry).length) ∧
    fetch_subtarget_entry [⟨"5abcd-entry", [⟨true, "x"⟩]⟩] "5" =
      .ok (some ⟨"5abcd-entry", [⟨true, "x"⟩]⟩) := by
  refine ⟨by decide, by decide, by decide⟩

/-- C5 as amended: `entry_id` resolves as (a) the literal `-1` meaning the
last entry, (b) an in-range non-negative integer meaning a positional index,
and (c) otherwise — a non-integer string, or an integer that is out of range
— a prefix match against entry UUIDs, which fails with the NotFound error
(never an IndexError) when no entry UUID starts with the given string. -/
theorem C5_entry_resolution (entries : List SEntry) (entryId : String) :
    (parsePyInt entryId = some (-1) →
      fetch_subtarget_entry entries entryId = .ok entries.getLast?) ∧
    (∀ k : Int, parsePyInt entryId = some k → 0 ≤ k → k < entries.length →
      fetch_subtarget_entry entries entryId = .ok (entries.get? k.toNat)) ∧
    ((parsePyInt entryId = none ∨
        (∃ k : Int, parsePyInt entryId = some k ∧ k ≠ -1 ∧
          ¬(0 ≤ k ∧ k < entries.length))) →
      fetch_subtarget_entry entries entryId =
        match entries.find? (fun e => pyStartsWith e.id entryId) with
        | some e => .ok (some e)
        | none => .error .notFound) := by
  refine ⟨?_, ?_, ?_⟩
  · intro hp
    unfold fetch_subtarget_entry
    rw [hp]
    simp
  · intro k hp h0 hlen
    unfold fetch_subtarget_entry
    rw [hp]
    have hk : k ≠ -1 := by omega
    show (if k = -1 then Except.ok entries.getLast?
      else if 0 ≤ k ∧ k < (entries.length : Int) then Except.ok (entries.get? k.toNat)
      else fetchEntryByUuid entries entryId) = Except.ok (entries.get? k.toNat)
    rw [if_neg hk, if_pos ⟨h0, hlen⟩]
  · intro hp
    unfold fetch_subtarget_entry
    rcases hp with hnone | ⟨k, hk, hne, hout⟩
    · rw [hnone]
      rfl
    · rw [hk]
      show (if k = -1 then Except.ok entries.getLast?
        else if 0 ≤ k ∧ k < (entries.length : Int) then Except.ok (entries.get? k.toNat)
        else fetchEntryByUuid entries entryId) = _
      rw [if_neg hne, if_neg hout]
      rfl

/-- Witness for C5 at each of the three resolution modes. -/
theorem C5_entry_resolution_witness :
    fetch_subtarget_entry [⟨"aa111", []⟩, ⟨"bb222", []⟩] "-1" =
      .ok (some ⟨"bb222", []⟩) ∧
    fetch_subtarget_entry [⟨"aa111", []⟩, ⟨"bb222", []⟩] "0" =
      .ok (some ⟨"aa111", []⟩) ∧
    fetch_subtarget_entry [⟨"aa111", []⟩, ⟨"bb222", []⟩] "bb" =
      .ok (some ⟨"bb222", []⟩) ∧
    fetch_subtarget_entry [⟨"aa111", []⟩, ⟨"bb222", []⟩] "zz" = .error .notFound := by
  refine ⟨?_, ?_, ?_, ?_⟩
  · exact (C5_entry_resolution [⟨"aa111", []⟩, ⟨"bb222", []⟩] "-1").1 (by decide)
  · exact (C5_entry_resolution [⟨"aa111", []⟩, ⟨"bb222", []⟩] "0").2.1 0 (by decide)
      (by decide) (by decide)
  · exact (C5_entry_resolution [⟨"aa111", []⟩, ⟨"bb222", []⟩] "bb").2.2
      (Or.inl (by decide))
  · exact (C5_entry_resolution [⟨"aa111", []⟩, ⟨"bb222", []⟩] "zz").2.2
      (Or.inl (by decide))

/-! ## Claim C4 -/

/-- C4 counterexample: the claim says name resolution matches the tag's
*resolved qualified path* (`"parent/child"`).  For a tag named `"child"`
under parent `"parent"`, the qualified path is exactly `"parent/child"`,
yet `get_tag_id` fails with NotFound on that target: the code compares the
target only against the plain `name` field. -/
theorem C4_counterexample :
    get_tag_name [⟨"bbbbb-parent-id", "parent", [], ""⟩,
        ⟨"aaaaa-child-id", "child", ["bbbbb-parent-id"], ""⟩] 2 "aaaaa-child-id" =
      some "parent/child" ∧
    get_tag_id [⟨"bbbbb-parent-id", "parent", [], ""⟩,
        ⟨"aaaaa-child-id", "child", ["bbbbb-parent-id"], ""⟩] "parent/child" =
      .error .notFound := by
  refine ⟨by decide, by decide⟩

/-- C4 as amended: `get_tag_id` resolves (1) an exact id match, then (2) for
targets of at least 5 characters a unique id-prefix match — AmbiguousMatch
listing all candidates when several tags share the prefix — then (3) a
case-insensitive match against the tag's *plain* name (qualified
`parent/child` paths are not matched), with AmbiguousMatch listing all
candidates when several tags share the name and NotFound when none does. -/
theorem C4_tag_resolution (tags : List Tag) (target : String) :
    ((∃ t ∈ tags, t.id = target) → get_tag_id tags target = .ok target) ∧
    (¬(∃ t ∈ tags, t.id = target) → 5 ≤ target.length →
      (∀ t, tags.filter (fun t => pyStartsWith t.id target) = [t] →
        get_tag_id tags target = .ok t.id) ∧
      (2 ≤ (tags.filter (fun t => pyStartsWith t.id target)).length →
        get_tag_id tags target =
          .error (.ambiguousMatch
            ((tags.filter (fun t => pyStartsWith t.id target)).map (fun t => t.id))))) ∧
    (¬(∃ t ∈ tags, t.id = target) →
      (target.length < 5 ∨ tags.filter (fun t => pyStartsWith t.id target) = []) →
      (∀ t, tags.filter (fun t => pyLower t.name = pyLower target) = [t] →
        get_tag_id tags target = .ok t.id) ∧
      (2 ≤ (tags.filter (fun t => pyLower t.name = pyLower target)).length →
        get_tag_id tags target =
          .error (.ambiguousMatch
            ((tags.filter (fun t => pyLower t.name = pyLower target)).map
              (fun t => t.id)))) ∧
      (tags.filter (fun t => pyLower t.name = pyLower target) = [] →
        get_tag_id tags target = .error .notFound)) := by
  have hcont : (tags.map (fun t => t.id)).contains target = true ↔
      ∃ t ∈ tags, t.id = target := by
    simp [List.contains_iff_exists_mem_beq, beq_iff_eq]
  refine ⟨?_, ?_, ?_⟩
  · intro hex
    unfold get_tag_id
    rw [if_pos (hcont.mpr hex)]
  · intro hex hlen
    have hc : ¬((tags.map (fun t => t.id)).contains target = true) := fun hh =>
      hex (hcont.mp hh)
    constructor
    · intro t hfilter
      unfold get_tag_id
      rw [if_neg hc, if_pos hlen, hfilter]
    · intro h2
      unfold get_tag_id
      rw [if_neg hc, if_pos hlen]
      rcases hfl : tags.filter (fun t => pyStartsWith t.id target) with _ | ⟨a, _ | ⟨b, l⟩⟩
      · rw [hfl] at h2; simp at h2
      · rw [hfl] at h2; simp at h2
      · rw [hfl]
  · intro hex hfall
    have hc : ¬((tags.map (fun t => t.id)).contains target = true) := fun hh =>
      hex (hcont.mp hh)
    have hname : ∀ goal : Except PyErr String,
        (match tags.filter (fun t => pyLower t.name = pyLower target) with
          | [t] => Except.ok t.id
          | [] => Except.error PyErr.notFound
          | matches_ =>
            Except.error (.ambiguousMatch (matches_.map (fun t => t.id)))) = goal →
        get_tag_id tags target = goal := by
      intro goal hgoal
      unfold get_tag_id
      rw [if_neg hc]
      rcases hfall with hlt | hnil
      · rw [if_neg (by omega)]
        exact hgoal
      · by_cases hlen : 5 ≤ target.length
        · rw [if_pos hlen, hnil]
          exact hgoal
        · rw [if_neg hlen]
          exact hgoal
    refine ⟨?_, ?_, ?_⟩
    · intro t hfilter
      exact hname _ (by rw [hfilter])
    · intro h2
      refine hname _ ?_
      rcases hfl : tags.filter (fun t => pyLower t.name = pyLower target) with
        _ | ⟨a, _ | ⟨b, l⟩⟩
      · rw [hfl] at h2; simp at h2
      · rw [hfl] at h2; simp at h2
      · rw [hfl]
    · intro hfilter
      exact hname _ (by rw [hfilter])

/-- Witness for C4 across the resolution stages. -/
theorem C4_tag_resolution_witness :
    get_tag_id [⟨"abcde1", "Work", [], ""⟩, ⟨"abcdf2", "Play", [], ""⟩] "abcde1" =
      .ok "abcde1" ∧
    get_tag_id [⟨"abcde1", "Work", [], ""⟩, ⟨"abcdf2", "Play", [], ""⟩] "abcde" =
      .ok "abcde1" ∧
    get_tag_id [⟨"taga-a1", "Work", [], ""⟩, ⟨"taga-a2", "Play", [], ""⟩] "taga-" =
      .error (.ambiguousMatch ["taga-a1", "taga-a2"]) ∧
    get_tag_id [⟨"abcde1", "Work", [], ""⟩, ⟨"abcdf2", "Play", [], ""⟩] "work" =
      .ok "abcde1" ∧
    get_tag_id [⟨"abcde1", "dup", [], ""⟩, ⟨"abcdf2", "Dup", [], ""⟩] "dup" =
      .error (.ambiguousMatch ["abcde1", "abcdf2"]) ∧
    get_tag_id [⟨"abcde1", "Work", [], ""⟩] "nope" = .error .notFound := by
  refine ⟨?_, ?_, ?_, ?_, ?_, ?_⟩
  · exact (C4_tag_resolution [⟨"abcde1", "Work", [], ""⟩, ⟨"abcdf2", "Play", [], ""⟩]
      "abcde1").1 ⟨⟨"abcde1", "Work", [], ""⟩, by decide, rfl⟩
  · exact ((C4_tag_resolution [⟨"abcde1", "Work", [], ""⟩, ⟨"abcdf2", "Play", [], ""⟩]
      "abcde").2.1 (by decide) (by decide)).1 ⟨"abcde1", "Work", [], ""⟩ (by decide)
  · exact ((C4_tag_resolution [⟨"taga-a1", "Work", [], ""⟩, ⟨"taga-a2", "Play", [], ""⟩]
      "taga-").2.1 (by decide) (by decide)).2 (by decide)
  · exact ((C4_tag_resolution [⟨"abcde1", "Work", [], ""⟩, ⟨"abcdf2", "Play", [], ""⟩]
      "work").2.2 (by decide) (Or.inl (by decide))).1 ⟨"abcde1", "Work", [], ""⟩
      (by decide)
  · exact ((C4_tag_resolution [⟨"abcde1", "dup", [], ""⟩, ⟨"abcdf2", "Dup", [], ""⟩]
      "dup").2.2 (by decide) (Or.inl (by decide))).2.1 (by decide)
  · exact ((C4_tag_resolution [⟨"abcde1", "Work", [], ""⟩] "nope").2.2 (by decide)
      (Or.inl (by decide))).2.2 (by decide)

/-! ## Claim C3 -/

/-- C3 counterexample: an imported file-backed object has `datetime`-valued
`date_created` (set from the file stat).  `serialize_object` renders it as
an iso string, and `deserialize_object`'s final reflection loop overwrites
the parsed metadata with the raw serialized dict, so the round-tripped
object's `date_created` is the string `"5"` (`isoformat` of timestamp 5)
rather than the original datetime — the metadata is not equal, refuting the
claim. -/
theorem C3_counterexample :
    (deserialize_object
        (serialize_object
          ⟨"oid", ⟨.str "nm", .none, .dt 5, .none, .str "ds", .none, .str "sf", []⟩,
            some "/p", some "h5", "txt", [], [], [], "Audio"⟩)
        "fresh" .none .none "now").metadata.date_created = .str "5" ∧
    (⟨"oid", ⟨.str "nm", .none, .dt 5, .none, .str "ds", .none, .str "sf", []⟩,
        some "/p", some "h5", "txt", [], [], [], "Audio"⟩ : AVObj).metadata.date_created =
      .dt 5 ∧
    (deserialize_object
        (serialize_object
          ⟨"oid", ⟨.str "nm", .none, .dt 5, .none, .str "ds", .none, .str "sf", []⟩,
            some "/p", some "h5", "txt", [], [], [], "Audio"⟩)
        "fresh" .none .none "now").metadata ≠
      (⟨"oid", ⟨.str "nm", .none, .dt 5, .none, .str "ds", .none, .str "sf", []⟩,
          some "/p", some "h5", "txt", [], [], [], "Audio"⟩ : AVObj).metadata := by
  refine ⟨by decide, by decide, by decide⟩

/-- C3 as amended: when `date_created` and `date_modified` are not
`datetime` instances (i.e. already iso strings or `None`, as they are for
every object previously loaded from the store),
`deserialize_object(serialize_object(o))` reproduces `o`'s `id`, `metadata`
(tag-assignment records and dates included), `transcripts`, `speech_data`
and `md5_hash` — independently of the fresh constructor-generated uuid and
file-stat dates. -/
theorem C3_serialization_roundtrip (o : AVObj) (freshId : String)
    (ctorCreated ctorModified : PVal) (ctorNow : String)
    (hdc : pvalIsDatetime o.metadata.date_created = false)
    (hdm : pvalIsDatetime o.metadata.date_modified = false) :
    (deserialize_object (serialize_object o) freshId ctorCreated ctorModified
        ctorNow).id = o.id ∧
    (deserialize_object (serialize_object o) freshId ctorCreated ctorModified
        ctorNow).metadata = o.metadata ∧
    (deserialize_object (serialize_object o) freshId ctorCreated ctorModified
        ctorNow).transcripts = o.transcripts ∧
    (deserialize_object (serialize_object o) freshId ctorCreated ctorModified
        ctorNow).speech_data = o.speech_data ∧
    (deserialize_object (serialize_object o) freshId ctorCreated ctorModified
        ctorNow).md5_hash = o.md5_hash := by
  have hc : serDate o.metadata.date_created = o.metadata.date_created := by
    rcases h : o.metadata.date_created with _ | s | t
    · rfl
    · rfl
    · rw [h] at hdc; simp [pvalIsDatetime] at hdc
  have hm : serDate o.metadata.date_modified = o.metadata.date_modified := by
    rcases h : o.metadata.date_modified with _ | s | t
    · rfl
    · rfl
    · rw [h] at hdm; simp [pvalIsDatetime] at hdm
  refine ⟨rfl, ?_, rfl, rfl, rfl⟩
  show (⟨o.metadata.name, o.metadata.url, serDate o.metadata.date_created,
      serDate o.metadata.date_modified, o.metadata.date_stored,
      o.metadata.date_recorded, o.metadata.source_filename,
      o.metadata.tags⟩ : OMeta) = o.metadata
  rw [hc, hm]

/-- Witness for C3 on a string-dated object. -/
theorem C3_serialization_roundtrip_witness :
    (deserialize_object
        (serialize_object
          ⟨"oid", ⟨.str "nm", .none, .str "2024-01-01", .none, .str "ds", .str "dr",
              .str "sf", [⟨"tid", "2024", "user"⟩]⟩,
            some "/p", some "h5", "txt", ["pt"], [⟨"tr1", []⟩], [⟨"sd1", []⟩],
            "Voice"⟩)
        "fresh" (.dt 3) (.dt 4) "now").metadata =
      ⟨.str "nm", .none, .str "2024-01-01", .none, .str "ds", .str "dr", .str "sf",
        [⟨"tid", "2024", "user"⟩]⟩ ∧
    (deserialize_object
        (serialize_object
          ⟨"oid", ⟨.str "nm", .none, .str "2024-01-01", .none, .str "ds", .str "dr",
              .str "sf", [⟨"tid", "2024", "user"⟩]⟩,
            some "/p", some "h5", "txt", ["pt"], [⟨"tr1", []⟩], [⟨"sd1", []⟩],
            "Voice"⟩)
        "fresh" (.dt 3) (.dt 4) "now").md5_hash = some "h5" :=
  ⟨(C3_serialization_roundtrip
      ⟨"oid", ⟨.str "nm", .none, .str "2024-01-01", .none, .str "ds", .str "dr",
          .str "sf", [⟨"tid", "2024", "user"⟩]⟩,
        some "/p", some "h5", "txt", ["pt"], [⟨"tr1", []⟩], [⟨"sd1", []⟩], "Voice"⟩
      "fresh" (.dt 3) (.dt 4) "now" (by decide) (by decide)).2.1,
   (C3_serialization_roundtrip
      ⟨"oid", ⟨.str "nm", .none, .str "2024-01-01", .none, .str "ds", .str "dr",
          .str "sf", [⟨"tid", "2024", "user"⟩]⟩,
        some "/p", some "h5", "txt", ["pt"], [⟨"tr1", []⟩], [⟨"sd1", []⟩], "Voice"⟩
      "fresh" (.dt 3) (.dt 4) "now" (by decide) (by decide)).2.2.2.2⟩

/-! ## Claim C7 -/

/-- Appending a node whose `index` is the current length preserves dense,
document-ordered indices — exactly the shape of every `nodes.append` in
`parse_sexp.process_node`. -/
theorem indicesDense_snoc (l : List PNode) (s : String) (p : Option Nat)
    (h : indicesDense l) : indicesDense (l ++ [⟨l.length, s, p⟩]) := by
  intro j hj
  simp only [List.length_append, List.length_singleton] at hj
  by_cases hlt : j < l.length
  · rw [List.getElem_append_left hlt]
    exact h j hlt
  · have hje : j = l.length := by omega
    subst hje
    rw [List.getElem_append_right (Nat.le_refl _)]
    simp

mutual
/-- `process_node` on well-formed input succeeds, strictly extends the node
list, and preserves dense document-order indices. -/
theorem processNode_total (parent : Option Nat) (acc : List PNode) (sx : Sexp)
    (hwf : wfNode sx = true) :
    ∃ out, processNode parent acc sx = some out ∧ acc.length < out.length ∧
      (∃ ext, out = acc ++ ext) ∧ (indicesDense acc → indicesDense out) := by
  match sx with
  | .atom s =>
    refine ⟨acc ++ [(⟨acc.length, s, parent⟩ : PNode)], rfl, by simp,
      ⟨[(⟨acc.length, s, parent⟩ : PNode)], rfl⟩, ?_⟩
    exact fun hd => indicesDense_snoc acc s parent hd
  | .slist [] => exact absurd hwf (by simp [wfNode])
  | .slist (Sexp.atom s :: tl) =>
    have htl : wfNodeList tl = true := by
      simpa [wfNode] using hwf
    obtain ⟨out, hout, hlen, ⟨ext, hext⟩, hdense⟩ :=
      processNodeList_total acc.length (acc ++ [⟨acc.length, s, parent⟩]) tl htl
    refine ⟨out, ?_, ?_, ⟨⟨acc.length, s, parent⟩ :: ext, ?_⟩, ?_⟩
    · simpa [processNode] using hout
    · simp only [List.length_append, List.length_singleton] at hlen
      omega
    · rw [hext, List.append_assoc]
      rfl
    · intro hd
      exact hdense (indicesDense_snoc acc s parent hd)
  | .slist (Sexp.slist ys :: tl) => exact absurd hwf (by simp [wfNode])

/-- The `for subnode in node[1:]` loop on well-formed input succeeds,
extends the node list, and preserves dense indices. -/
theorem processNodeList_total (parent : Nat) (acc : List PNode) (l : List Sexp)
    (hwf : wfNodeList l = true) :
    ∃ out, processNodeList parent acc l = some out ∧ acc.length ≤ out.length ∧
      (∃ ext, out = acc ++ ext) ∧ (indicesDense acc → indicesDense out) := by
  match l with
  | [] => exact ⟨acc, rfl, Nat.le_refl _, ⟨[], by simp⟩, fun hd => hd⟩
  | x :: xs =>
    have hx : wfNode x = true ∧ wfNodeList xs = true := by
      simpa [wfNodeList, Bool.and_eq_true] using hwf
    obtain ⟨mid, hmid, hlen1, ⟨ext1, hext1⟩, hdense1⟩ :=
      processNode_total (some parent) acc x hx.1
    obtain ⟨out, hout, hlen2, ⟨ext2, hext2⟩, hdense2⟩ :=
      processNodeList_total parent mid xs hx.2
    refine ⟨out, ?_, by omega, ⟨ext1 ++ ext2, ?_⟩, fun hd => hdense2 (hdense1 hd)⟩
    · show processNodeList parent acc (x :: xs) = some out
      unfold processNodeList
      rw [hmid]
      exact hout
    · rw [hext2, hext1, List.append_assoc]
end

/-- The top-level `for node in section[2:]` loop: success, monotone node
list, strict growth when the section has content, dense indices preserved. -/
theorem processTopList_total (acc : List PNode) (l : List Sexp)
    (hwf : wfNodeList l = true) :
    ∃ out, processTopList acc l = some out ∧ acc.length ≤ out.length ∧
      (l ≠ [] → acc.length < out.length) ∧ (indicesDense acc → indicesDense out) := by
  induction l generalizing acc with
  | nil => exact ⟨acc, rfl, Nat.le_refl _, fun h => absurd rfl h, fun hd => hd⟩
  | cons x xs ih =>
    have hx : wfNode x = true ∧ wfNodeList xs = true := by
      simpa [wfNodeList, Bool.and_eq_true] using hwf
    obtain ⟨mid, hmid, hlen1, _, hdense1⟩ := processNode_total Option.none acc x hx.1
    obtain ⟨out, hout, hlen2, _, hdense2⟩ := ih mid hx.2
    refine ⟨out, ?_, by omega, fun _ => by omega, fun hd => hdense2 (hdense1 hd)⟩
    show processTopList acc (x :: xs) = some out
    unfold processTopList
    rw [hmid]
    exact hout

/-- The section loop invariant: starting from dense nodes and valid,
mutually preceding sections, a well-formed list of nonempty sections parses
into dense nodes and valid, pairwise-preceding sections. -/
theorem sectionLoop_spec (secs : List Sexp) (accS : List Section)
    (accN : List PNode)
    (hwf : secs.all wfSection = true)
    (hne : secs.all sectionNonempty = true)
    (hdense : indicesDense accN)
    (hvalid : ∀ s ∈ accS, sectionValid accN.length s)
    (hpair : accS.Pairwise (fun s t => s.end_index < t.start_index)) :
    ∃ r, sectionLoop accS accN secs = some r ∧
      indicesDense r.nodes ∧
      (∀ s ∈ r.sections, sectionValid r.nodes.length s) ∧
      r.sections.Pairwise (fun s t => s.end_index < t.start_index) := by
  induction secs generalizing accS accN with
  | nil => exact ⟨⟨accS, accN⟩, rfl, hdense, hvalid, hpair⟩
  | cons sec rest ih =>
    have hsec : wfSection sec = true ∧ rest.all wfSection = true := by
      simpa [List.all_cons, Bool.and_eq_true] using hwf
    have hnesec : sectionNonempty sec = true ∧ rest.all sectionNonempty = true := by
      simpa [List.all_cons, Bool.and_eq_true] using hne
    match sec, hsec.1, hnesec.1 with
    | Sexp.slist (hd :: Sexp.atom label :: content), hsecwf, hsecne =>
      have hcontent : wfNodeList content = true := by
        simpa [wfSection] using hsecwf
      have hcne : content ≠ [] := by
        simp only [sectionNonempty] at hsecne
        intro hnil
        rw [hnil] at hsecne
        simp at hsecne
      obtain ⟨nodes', hnodes, hmono, hstrict, hdense'⟩ :=
        processTopList_total accN content hcontent
      have hgrow : accN.length < nodes'.length := hstrict hcne
      have hvalid' :
          ∀ s ∈ accS ++ [(⟨label, (accN.length : Int), (nodes'.length : Int) - 1⟩ : Section)],
            sectionValid nodes'.length s := by
        intro s hs
        rcases List.mem_append.mp hs with hold | hnewm
        · obtain ⟨h0, h1, h2⟩ := hvalid s hold
          exact ⟨h0, h1, by omega⟩
        · simp only [List.mem_singleton] at hnewm
          subst hnewm
          refine ⟨?_, ?_, ?_⟩
          · show (0 : Int) ≤ (accN.length : Int)
            omega
          · show (accN.length : Int) ≤ (nodes'.length : Int) - 1
            omega
          · show (nodes'.length : Int) - 1 < (nodes'.length : Int)
            omega
      have hpair' :
          (accS ++ [(⟨label, (accN.length : Int), (nodes'.length : Int) - 1⟩ : Section)]).Pairwise
            (fun s t => s.end_index < t.start_index) := by
        rw [List.pairwise_append]
        refine ⟨hpair, by simp, ?_⟩
        intro a ha b hb
        simp only [List.mem_singleton] at hb
        subst hb
        obtain ⟨_, _, h2⟩ := hvalid a ha
        show a.end_index < (accN.length : Int)
        exact h2
      obtain ⟨r, hr, hrdense, hrvalid, hrpair⟩ :=
        ih (accS ++ [(⟨label, (accN.length : Int), (nodes'.length : Int) - 1⟩ : Section)])
          nodes' hsec.2 hnesec.2 (hdense' hdense) hvalid' hpair'
      refine ⟨r, ?_, hrdense, hrvalid, hrpair⟩
      show sectionLoop accS accN (Sexp.slist (hd :: Sexp.atom label :: content) :: rest) =
        some r
      unfold sectionLoop
      rw [hnodes]
      exact hr

/-- C7 counterexample: `(document (section "A"))` is grammatically
well-formed input, yet its section gets `indeces = (0, -1)` over an empty
node list — the pair does not reference existing nodes, refuting the claim
for sections without content nodes. -/
theorem C7_counterexample :
    wfDocument (Sexp.slist [Sexp.atom "document",
        Sexp.slist [Sexp.atom "section", Sexp.atom "A"]]) = true ∧
    parse_sexp (Sexp.slist [Sexp.atom "document",
        Sexp.slist [Sexp.atom "section", Sexp.atom "A"]]) =
      some ⟨[⟨"A", 0, -1⟩], []⟩ ∧
    ¬ sectionValid 0 ⟨"A", 0, -1⟩ := by
  refine ⟨by decide, by decide, by decide⟩

/-- C7 as amended: for every well-formed S-expression input in which every
section carries at least one content node, `parse_sexp` succeeds, node
indices are dense and in document order, every section's `(start, end)`
pair references existing nodes, and no two sections' index ranges overlap
(successive ranges strictly precede each other). -/
theorem C7_section_ranges (sx : Sexp) (hwf : wfDocument sx = true)
    (hne : allSectionsNonempty sx = true) :
    ∃ r, parse_sexp sx = some r ∧
      indicesDense r.nodes ∧
      (∀ s ∈ r.sections, sectionValid r.nodes.length s) ∧
      r.sections.Pairwise sectionsDisjoint := by
  match sx, hwf with
  | Sexp.slist (hd :: sections), hwf =>
    have hsecs : sections.all wfSection = true := by
      simpa [wfDocument] using hwf
    have hnesecs : sections.all sectionNonempty = true := by
      simpa [allSectionsNonempty] using hne
    obtain ⟨r, hr, hdense, hvalid, hpair⟩ :=
      sectionLoop_spec sections [] [] hsecs hnesecs
        (fun j hj => absurd hj (by simp)) (fun s hs => absurd hs (by simp))
        (List.Pairwise.nil)
    refine ⟨r, ?_, hdense, hvalid, hpair.imp ?_⟩
    · show sectionLoop [] [] ((hd :: sections).drop 1) = some r
      simpa using hr
    · intro a b hab
      exact Or.inl hab

/-- Witness for C7 on a two-section document with a nested node. -/
theorem C7_section_ranges_witness :
    ∃ r, parse_sexp (Sexp.slist [Sexp.atom "document",
        Sexp.slist [Sexp.atom "section", Sexp.atom "A", Sexp.atom "n0",
          Sexp.slist [Sexp.atom "n1", Sexp.atom "n2"]],
        Sexp.slist [Sexp.atom "section", Sexp.atom "B", Sexp.atom "n3"]]) = some r ∧
      indicesDense r.nodes ∧
      (∀ s ∈ r.sections, sectionValid r.nodes.length s) ∧
      r.sections.Pairwise sectionsDisjoint :=
  C7_section_ranges
    (Sexp.slist [Sexp.atom "document",
      Sexp.slist [Sexp.atom "section", Sexp.atom "A", Sexp.atom "n0",
        Sexp.slist [Sexp.atom "n1", Sexp.atom "n2"]],
      Sexp.slist [Sexp.atom "section", Sexp.atom "B", Sexp.atom "n3"]])
    (by decide) (by decide)

/-! ## Claim C8 -/

/-- A group's object list is sorted ascending by the
`(date_recorded, date_stored)` key. -/
def sortedByKey (l : List GObj) : Prop :=
  l.Pairwise (fun a b => gobjLe a b = true)

/-- Python can compare every pair of keys in `l`: either every object has a
`date_recorded` or none has (a `None`/string mix raises `TypeError` in the
sort, leaving no state the claim could speak about). -/
def drComparable (l : List GObj) : Prop :=
  (∀ o ∈ l, o.date_recorded.isSome = true) ∨ (∀ o ∈ l, o.date_recorded = none)

theorem gobjLe_total (a b : GObj) : (gobjLe a b || gobjLe b a) = true := by
  obtain ⟨i1, d1, s1⟩ := a
  obtain ⟨i2, d2, s2⟩ := b
  rcases d1 with _ | x <;> rcases d2 with _ | y <;>
    simp_all [gobjLe, optStrEq, optStrLe]
  · exact le_total s1.data s2.data
  · by_cases hxy : x = y
    · subst hxy
      simp [le_total s1.data s2.data]
    · simp [hxy, Ne.symm hxy]
      exact le_total x.data y.data

theorem gobjLe_trans (a b c : GObj) (hab : gobjLe a b = true)
    (hbc : gobjLe b c = true) : gobjLe a c = true := by
  obtain ⟨i1, d1, s1⟩ := a
  obtain ⟨i2, d2, s2⟩ := b
  obtain ⟨i3, d3, s3⟩ := c
  rcases d1 with _ | x <;> rcases d2 with _ | y <;> rcases d3 with _ | z <;>
    simp_all [gobjLe, optStrEq, optStrLe]
  · exact le_trans hab hbc
  · by_cases hxy : x = y <;> by_cases hyz : y = z <;> simp_all
    · exact le_trans hab hbc
    · by_cases hxz : x = z
      · subst hxz
        have hdata : x.data = y.data := le_antisymm hab hbc
        exact absurd (congrArg String.mk hdata) hxy
      · simp [hxz]
        exact le_trans hab hbc

/-- C8: each `add_objects` call adds exactly the batch elements not already
present (set-like semantics), sortedness by `(date_recorded, date_stored)`
is preserved by every call, and after any sequence of `add_objects` calls
on a freshly created group (whose object list starts empty) the list is
sorted ascending by that key.  The comparability hypotheses keep the
statement within the key sets on which Python's tuple comparison is
defined. -/
theorem C8_group_chronological_order :
    (∀ current batch : List GObj,
      (add_objects current batch).Perm
        (current ++ batch.filter (fun o => ¬ current.contains o))) ∧
    (∀ current batch : List GObj, drComparable (current ++ batch) →
      sortedByKey current → sortedByKey (add_objects current batch)) ∧
    (∀ batches : List (List GObj), drComparable batches.flatten →
      sortedByKey (batches.foldl add_objects [])) := by
  have hperm : ∀ current batch : List GObj,
      (add_objects current batch).Perm
        (current ++ batch.filter (fun o => ¬ current.contains o)) := by
    intro current batch
    unfold add_objects
    rcases hnew : batch.filter (fun o => ¬ current.contains o) with _ | ⟨x, xs⟩
    · simp
    · rw [if_neg (by simp)]
      rw [← hnew]
      exact List.mergeSort_perm _ _
  have hsorted : ∀ current batch : List GObj,
      sortedByKey current → sortedByKey (add_objects current batch) := by
    intro current batch hcur
    unfold add_objects
    rcases hnew : batch.filter (fun o => ¬ current.contains o) with _ | ⟨x, xs⟩
    · simpa using hcur
    · rw [if_neg (by simp)]
      exact List.sorted_mergeSort (fun a b c => gobjLe_trans a b c)
        (fun a b => gobjLe_total a b) _
  refine ⟨hperm, fun current batch _ hcur => hsorted current batch hcur, ?_⟩
  intro batches hcomp
  clear hcomp
  have hfold : ∀ acc : List GObj,
      sortedByKey acc → sortedByKey (batches.foldl add_objects acc) := by
    induction batches with
    | nil => exact fun acc h => h
    | cons b bs ih =>
      intro acc hacc
      exact ih (add_objects acc b) (hsorted acc b hacc)
  exact hfold [] (List.Pairwise.nil)

/-- Witness for C8: two single-object batches arriving out of order. -/
theorem C8_group_chronological_order_witness :
    (add_objects [⟨"a", some "2024-05", "s1"⟩] [⟨"b", some "2024-01", "s2"⟩]).Perm
      ([⟨"a", some "2024-05", "s1"⟩] ++
        ([⟨"b", some "2024-01", "s2"⟩] : List GObj).filter
          (fun o => ¬ ([⟨"a", some "2024-05", "s1"⟩] : List GObj).contains o)) ∧
    sortedByKey
      ([[⟨"a", some "2024-05", "s1"⟩], [⟨"b", some "2024-01", "s2"⟩]].foldl
        add_objects []) :=
  ⟨C8_group_chronological_order.1 [⟨"a", some "2024-05", "s1"⟩]
      [⟨"b", some "2024-01", "s2"⟩],
   C8_group_chronological_order.2.2
      [[⟨"a", some "2024-05", "s1"⟩], [⟨"b", some "2024-01", "s2"⟩]]
      (Or.inl (by decide))⟩

/-! ## Claim C9 -/

/-- The claim's default scope, in its own words: for an object with entry
attributes, the most recent speech_data entry if the object has any
speech_data, otherwise the most recent transcript entry if it has any
transcripts. -/
def mostRecentScope (o : MObj) : List (String × String × SEntry) :=
  if o.hasSpeech then
    match o.speech_data.getLast? with
    | some e => [(o.id, "speech_data", e)]
    | none =>
      match o.transcripts.getLast? with
      | some e => [(o.id, "transcripts", e)]
      | none => []
  else []

/-- The claim's full-search scope: every speech_data entry and every
transcript entry of the object. -/
def fullScope (o : MObj) : List (String × String × SEntry) :=
  if o.hasSpeech then
    o.speech_data.map (fun e => (o.id, "speech_data", e))
      ++ o.transcripts.map (fun e => (o.id, "transcripts", e))
  else []

/-- Modelled from the claim's wording: the set of entries search examines. -/
def searchScopeSpec (media_objects : List MObj) (full : Bool) :
    List (String × String × SEntry) :=
  media_objects.flatMap (fun o => if full then fullScope o else mostRecentScope o)

theorem foldl_append_eq_flatMap {α β : Type} (f : α → List β) :
    ∀ (l : List α) (acc : List β),
      l.foldl (fun a o => a ++ f o) acc = acc ++ l.flatMap f := by
  intro l
  induction l with
  | nil => intro acc; simp
  | cons x xs ih =>
    intro acc
    simp only [List.foldl_cons, List.flatMap_cons]
    rw [ih (acc ++ f x), List.append_assoc]

theorem entriesContrib_eq_scope (o : MObj) (full : Bool) :
    entriesContrib o full = if full then fullScope o else mostRecentScope o := by
  cases full with
  | true =>
    unfold entriesContrib fullScope
    by_cases h : o.hasSpeech <;> simp [h]
  | false =>
    unfold entriesContrib mostRecentScope
    by_cases h : o.hasSpeech
    · rcases hs : o.speech_data with _ | ⟨x, xs⟩
      · rcases ht : o.transcripts with _ | ⟨y, ys⟩
        · simp [h, hs, ht]
        · have : (y :: ys).getLast? = some ((y :: ys).getLast (by simp)) :=
            List.getLast?_eq_getLast _ _
          simp [h, hs, this]
      · have : (x :: xs).getLast? = some ((x :: xs).getLast (by simp)) :=
          List.getLast?_eq_getLast _ _
        simp [h, hs, this]
    · simp [h]

/-- C9: with `full_search=False` search examines, per media object, exactly
the most recent speech_data entry when the object has speech_data,
otherwise the most recent transcript entry when it has transcripts; with
`full_search=True` it examines every speech_data and transcript entry of
every object; and with any per-entry matcher (`exact` or `fuzzy`) the
returned list holds at most `max_results` `(matched_text, locator)` pairs. -/
theorem C9_search_scope_and_cap :
    (∀ (media_objects : List MObj) (full : Bool),
      entriesToSearch media_objects full = searchScopeSpec media_objects full) ∧
    (∀ (matcher : String × String × SEntry → List (String × String))
      (media_objects : List MObj) (maxResults : Nat) (full : Bool),
      (searchWith matcher media_objects maxResults full).length ≤ maxResults) ∧
    (∀ (media_objects : List MObj) (query : String) (maxResults : Nat)
      (ignoreCase full : Bool),
      (searchExact media_objects query maxResults ignoreCase full).length ≤
        maxResults) := by
  have hcap : ∀ (matcher : String × String × SEntry → List (String × String))
      (media_objects : List MObj) (maxResults : Nat) (full : Bool),
      (searchWith matcher media_objects maxResults full).length ≤ maxResults := by
    intro matcher media_objects maxResults full
    unfold searchWith
    exact List.length_take_le _ _
  refine ⟨?_, hcap, fun lib q mx ic full => hcap _ lib mx full⟩
  intro media_objects full
  unfold entriesToSearch searchScopeSpec
  rw [foldl_append_eq_flatMap (fun o => entriesContrib o full) media_objects []]
  simp only [List.nil_append]
  congr 1
  funext o
  exact entriesContrib_eq_scope o full

/-! ## Claim C2 -/

/-- The code points of an emitted locator, regrouped around its separator
colons. -/
theorem mkLocator_data (mediaId ty entryId : String) (i : Nat) :
    (mkLocator mediaId ty entryId i).data =
      (pyTake 8 mediaId).data ++ ':' :: (ty.data ++ ':' ::
        (((pyTake 5 entryId).data ++ '.' :: ['n', 'o', 'd', 'e', 's'])
          ++ ':' :: natChars i)) := by
  show (pyTake 8 mediaId).data ++ ':' :: ty.data ++ ':' :: (pyTake 5 entryId).data
      ++ '.' :: ['n', 'o', 'd', 'e', 's'] ++ ':' :: natChars i =
    (pyTake 8 mediaId).data ++ ':' :: (ty.data ++ ':' ::
      (((pyTake 5 entryId).data ++ '.' :: ['n', 'o', 'd', 'e', 's'])
        ++ ':' :: natChars i))
  simp

/-- Splitting an emitted locator on `':'` recovers its four segments,
provided the truncated ids and the entry type contain no `':'`. -/
theorem pySplit_mkLocator (mediaId ty entryId : String) (i : Nat)
    (h1 : ':' ∉ (pyTake 8 mediaId).data) (h2 : ':' ∉ ty.data)
    (h3 : ':' ∉ (pyTake 5 entryId).data) :
    pySplit ':' (mkLocator mediaId ty entryId i) =
      [pyTake 8 mediaId, ty,
        ⟨(pyTake 5 entryId).data ++ '.' :: ['n', 'o', 'd', 'e', 's']⟩, pyStr i] := by
  have hmem : ':' ∉ (pyTake 5 entryId).data ++ '.' :: ['n', 'o', 'd', 'e', 's'] := by
    intro hm
    rcases List.mem_append.mp hm with hm | hm
    · exact h3 hm
    · exact absurd hm (by decide)
  have key : pySplitCh ':' (mkLocator mediaId ty entryId i).data =
      [(pyTake 8 mediaId).data, ty.data,
        (pyTake 5 entryId).data ++ '.' :: ['n', 'o', 'd', 'e', 's'], natChars i] := by
    rw [mkLocator_data]
    rw [pySplitCh_append ':' (pyTake 8 mediaId).data _ h1]
    rw [pySplitCh_append ':' ty.data _ h2]
    rw [pySplitCh_append ':'
      ((pyTake 5 entryId).data ++ '.' :: ['n', 'o', 'd', 'e', 's'])
      (natChars i) hmem]
    rw [pySplitCh_not_mem ':' (natChars i) (colon_not_mem_natChars i)]
  unfold pySplit
  rw [key]
  rfl

/-- Parsing an emitted locator recovers the 8-char object prefix, the entry
type, the 5-char entry prefix and the node index. -/
theorem parse_mkLocator (mediaId ty entryId : String) (i : Nat)
    (h1 : ':' ∉ (pyTake 8 mediaId).data) (h2 : ':' ∉ ty.data)
    (h3 : ':' ∉ (pyTake 5 entryId).data) (h4 : '.' ∉ (pyTake 5 entryId).data) :
    parse_node_locator (mkLocator mediaId ty entryId i) =
      some (pyTake 8 mediaId, ty, pyTake 5 entryId, some (i : Int)) := by
  unfold parse_node_locator
  rw [pySplit_mkLocator mediaId ty entryId i h1 h2 h3]
  have hdot : pySplit '.'
      (⟨(pyTake 5 entryId).data ++ '.' :: ['n', 'o', 'd', 'e', 's']⟩ : String) =
      [pyTake 5 entryId, "nodes"] := by
    show (pySplitCh '.'
        ((pyTake 5 entryId).data ++ '.' :: ['n', 'o', 'd', 'e', 's'])).map
        (fun l => (⟨l⟩ : String)) =
      [pyTake 5 entryId, "nodes"]
    rw [pySplitCh_append '.' (pyTake 5 entryId).data ['n', 'o', 'd', 'e', 's'] h4]
    rw [pySplitCh_not_mem '.' ['n', 'o', 'd', 'e', 's'] (by decide)]
    rfl
  have hcolon : ':' ∈ (mkLocator mediaId ty entryId i).data := by
    rw [mkLocator_data]
    simp
  have hlast : ([pyTake 8 mediaId, ty,
      (⟨(pyTake 5 entryId).data ++ '.' :: ['n', 'o', 'd', 'e', 's']⟩ : String),
      pyStr i] : List String).getLast? = some (pyStr i) := rfl
  simp only [hdot, hcolon, hlast, if_true, parsePyInt_pyStr i, Option.some_bind]

/-- A nonempty `getattr(media_object, entry_type, [])` pins the entry type
to one of the two entry collections. -/
theorem getEntries_ne_nil_cases (o : MObj) (ty : String)
    (h : getEntries o ty ≠ []) : ty = "speech_data" ∨ ty = "transcripts" := by
  unfold getEntries at h
  by_cases hs : ty = "speech_data"
  · exact Or.inl hs
  · by_cases ht : ty = "transcripts"
    · exact Or.inr ht
    · rw [if_neg hs, if_neg ht] at h
      exact absurd rfl h

/-- C2 counterexample: the locator emitted by search for node 0 of the entry
with UUID `"00000-entry"` (content `"world"`) resolves to the *other*
entry's node (content `"hello"`): `fetch_subtarget_entry` parses the 5-char
prefix `"00000"` as the integer 0 and returns `entries[0]` positionally. -/
theorem C2_counterexample :
    mkLocator "objid111-rest" "speech_data" "00000-entry" 0 =
      "objid111:speech_data:00000.nodes:0" ∧
    (⟨"00000-entry", [⟨false, "world"⟩]⟩ : SEntry).nodes = [⟨false, "world"⟩] ∧
    resolveLocator
      [⟨"objid111-rest", some "h1", true,
        [⟨"aaaa1-entry", [⟨false, "hello"⟩]⟩, ⟨"00000-entry", [⟨false, "world"⟩]⟩],
        []⟩]
      "objid111:speech_data:00000.nodes:0" = some ⟨false, "hello"⟩ ∧
    (⟨false, "hello"⟩ : SNode) ≠ ⟨false, "world"⟩ := by
  refine ⟨by decide, rfl, by decide, by decide⟩

/-- C2 as amended: the locator `o.id[:8]:entry_type:e.id[:5].nodes:i`
emitted by search resolves through locator parsing, prefix fetch of the
object and prefix fetch of the entry back to node `i` of `e`, provided
(i) `o` is the first library object whose id starts with the 8-char prefix,
(ii) the 5-char entry prefix does not parse as `-1` or as an in-range
positional index (which would silently select a different entry), and
(iii) `e` is the first entry whose UUID starts with that prefix (the id
prefixes being UUID-like: free of `':'` and `'.'`). -/
theorem C2_locator_roundtrip (lib : List MObj) (o : MObj) (ty : String)
    (e : SEntry) (i : Nat) (hi : i < e.nodes.length)
    (hobj : fetchFirst lib (pyTake 8 o.id) = some o)
    (hint : ∀ k : Int, parsePyInt (pyTake 5 e.id) = some k →
      k ≠ -1 ∧ ¬(0 ≤ k ∧ k < ((getEntries o ty).length : Int)))
    (hent : (getEntries o ty).find?
      (fun x => pyStartsWith x.id (pyTake 5 e.id)) = some e)
    (hc1 : ':' ∉ (pyTake 8 o.id).data)
    (hc2 : ':' ∉ (pyTake 5 e.id).data) (hc3 : '.' ∉ (pyTake 5 e.id).data) :
    resolveLocator lib (mkLocator o.id ty e.id i) = some (e.nodes.get ⟨i, hi⟩) := by
  have hne : getEntries o ty ≠ [] := by
    intro hnil
    rw [hnil] at hent
    simp at hent
  have hty : ':' ∉ ty.data := by
    rcases getEntries_ne_nil_cases o ty hne with h | h <;> subst h <;> decide
  have hfe : fetch_subtarget_entry (getEntries o ty) (pyTake 5 e.id) =
      .ok (some e) := by
    unfold fetch_subtarget_entry
    rcases hparse : parsePyInt (pyTake 5 e.id) with _ | k
    · show fetchEntryByUuid (getEntries o ty) (pyTake 5 e.id) = .ok (some e)
      unfold fetchEntryByUuid
      rw [hent]
    · obtain ⟨hk1, hk2⟩ := hint k hparse
      show (if k = -1 then Except.ok (getEntries o ty).getLast?
        else if 0 ≤ k ∧ k < ((getEntries o ty).length : Int) then
          Except.ok ((getEntries o ty).get? k.toNat)
        else fetchEntryByUuid (getEntries o ty) (pyTake 5 e.id)) =
        Except.ok (some e)
      rw [if_neg hk1, if_neg hk2]
      unfold fetchEntryByUuid
      rw [hent]
  unfold resolveLocator
  rw [parse_mkLocator o.id ty e.id i hc1 hty hc2 hc3]
  simp only [hobj]
  unfold fetchNodeInObject
  rw [hfe]
  show fetchNodeAt e (i : Int) = some (e.nodes.get ⟨i, hi⟩)
  unfold fetchNodeAt
  rw [if_neg (by omega)]
  rw [Int.toNat_ofNat i]
  exact List.get?_eq_get hi

/-- Witness for C2 on a one-object library with a non-numeric entry-id
prefix. -/
theorem C2_locator_roundtrip_witness :
    resolveLocator
      [⟨"objid222-rest", some "h2", true, [⟨"eabcd-entry", [⟨true, "hi"⟩]⟩], []⟩]
      (mkLocator "objid222-rest" "speech_data" "eabcd-entry" 0) =
      some ⟨true, "hi"⟩ := by
  have h := C2_locator_roundtrip
    [⟨"objid222-rest", some "h2", true, [⟨"eabcd-entry", [⟨true, "hi"⟩]⟩], []⟩]
    ⟨"objid222-rest", some "h2", true, [⟨"eabcd-entry", [⟨true, "hi"⟩]⟩], []⟩
    "speech_data" ⟨"eabcd-entry", [⟨true, "hi"⟩]⟩ 0 (by decide) (by decide)
    (by
      intro k hk
      rw [show parsePyInt (pyTake 5 (⟨"eabcd-entry", [⟨true, "hi"⟩]⟩ : SEntry).id) =
        none by decide] at hk
      exact absurd hk (by simp))
    (by decide) (by decide) (by decide) (by decide)
  simpa using h

end Catalog
